import Mathlib

/-!
Verification development for the connection-construction core of a spiking
neural network simulator (`src/nestkernel/conn_builder.cpp`).

The embedding models one MPI rank.  Node identifiers are natural numbers;
the node graph holds nodes `1 .. numNodes`, each owned by one worker thread
(`nodeThread`).  Random number generators are modelled as tagged streams of
natural numbers: the tag records whether a stream is synchronized across
ranks and threads (`get_rank_synced_rng` / `get_vp_synced_rng` in the
source) or specific to one virtual process (`get_vp_specific_rng`).
Rejection loops in the source (`do ... while` redraw loops) are modelled
with explicit fuel and return `Option`.
-/

namespace NestConn

/-- Provenance tag of a random-number stream: `synced` for generators whose
sequence is identical on every rank (the source's rank-synced and VP-synced
generators), `vpSpecific` for the independent per-virtual-process streams. -/
inductive StreamTag where
  | synced
  | vpSpecific
deriving DecidableEq, Repr

/-- A pseudo-random generator: an underlying stream of naturals together
with the current position and the provenance tag of the stream. -/
structure Rng where
  tag : StreamTag
  stream : Nat → Nat
  pos : Nat

/-- Consume one value from the stream. -/
def Rng.next (r : Rng) : Nat × Rng :=
  (r.stream r.pos, { r with pos := r.pos + 1 })

/-- Model of `rng->ulrand(n)`: a draw uniform on `{0, …, n-1}`. -/
def Rng.ulrand (r : Rng) (n : Nat) : Nat × Rng :=
  let v := r.next
  (v.1 % n, v.2)

/-- Model of drawing from `binomial_distribution` with count parameter `n`:
the sampler consumes the generator and returns a value in `{0, …, n}`.
The success probability only shapes the distribution of the outcome, not
which generator is consumed, so it is not part of the model. -/
def Rng.binomial (r : Rng) (n : Nat) : Nat × Rng :=
  let v := r.next
  (v.1 % (n + 1), v.2)

/-- The RNG factory of the kernel (`get_rank_synced_rng`,
`get_vp_synced_rng`, `get_vp_specific_rng`): synchronized streams carry the
`synced` tag, per-VP streams the `vpSpecific` tag. -/
structure RngFactory where
  syncedStream : Nat → Nat
  vpStream : Nat → Nat → Nat

/-- Model of `get_vp_synced_rng(tid)`: every thread on every rank sees the
identical sequence. -/
def getVpSyncedRng (f : RngFactory) : Rng :=
  ⟨.synced, f.syncedStream, 0⟩

/-- Model of `get_rank_synced_rng()`: one stream identical on every rank. -/
def getRankSyncedRng (f : RngFactory) : Rng :=
  ⟨.synced, f.syncedStream, 0⟩

/-- Model of `get_vp_specific_rng(tid)`: an independent stream per VP. -/
def getVpSpecificRng (f : RngFactory) (tid : Nat) : Rng :=
  ⟨.vpSpecific, f.vpStream tid, 0⟩

/-- Error taxonomy of the exceptions thrown in `conn_builder.cpp`.
`wrappedThread` carries the payload of a worker-thread exception re-raised
after a parallel region (`WrappedThreadException`). -/
inductive ConnError where
  | badProperty
  | notImplemented
  | dimensionMismatch
  | kernelException
  | illegalConnection
  | wrappedThread (payload : Nat)
deriving DecidableEq, Repr

/-- Decidable success test for `Except`. -/
def exceptOk {ε α : Type} (e : Except ε α) : Bool :=
  match e with
  | .ok _ => true
  | .error _ => false

/-- A `NodeCollection`: an ordered finite sequence of node identifiers,
with a flag recording whether it is a contiguous range (`is_range()`). -/
structure NodeCollection where
  elems : List Nat
  isRange : Bool
deriving DecidableEq, Repr

/-- `NodeCollection::size()`. -/
def NodeCollection.size (c : NodeCollection) : Nat :=
  c.elems.length

/-- `(*collection)[i]`: constant-time index lookup. -/
def NodeCollection.get (c : NodeCollection) (i : Nat) : Nat :=
  c.elems.getD i 0

/-- `NodeCollection::get_lid(node_id)`: index of a node inside the
collection, `-1` if absent. -/
def NodeCollection.getLid (c : NodeCollection) (n : Nat) : Int :=
  match c.elems.indexOf? n with
  | some i => (i : Int)
  | none => -1

/-- The kernel services the builders use, restricted to one rank: the
number of worker threads, the size of the whole node graph
(`node_manager.size()`, nodes `1 .. numNodes`), and the owning thread of
each node on this rank. -/
structure Kernel where
  numThreads : Nat
  numNodes : Nat
  nodeThread : Nat → Nat

/-- `get_node_or_proxy(n, tid)->is_proxy()`: a node is a proxy on thread
`tid` iff `tid` does not own it. -/
def Kernel.isProxy (K : Kernel) (n tid : Nat) : Bool :=
  K.nodeThread n != tid

/-- `node_manager.get_local_nodes(tid)`: the nodes of the graph owned by
thread `tid`, in ascending id order. -/
def Kernel.localNodes (K : Kernel) (tid : Nat) : List Nat :=
  ((List.range K.numNodes).map (· + 1)).filter (fun n => K.nodeThread n = tid)

/-- A `ConnParameter` as far as the reset/cursor bookkeeping of the base
builder is concerned: an array-indexed parameter carries a cursor that
`reset()` returns to its initial position. -/
structure ConnParameter where
  cursor : Nat
  requiresSkipping : Bool
deriving DecidableEq, Repr

/-- `ConnParameter::reset()`. -/
def ConnParameter.reset (p : ConnParameter) : ConnParameter :=
  { p with cursor := 0 }

/-- An emitted edge: source id, target id, and the attribute values drawn
by the per-synapse parameter pipeline for this edge. -/
structure Edge where
  src : Nat
  tgt : Nat
  attrs : List Nat
deriving DecidableEq, Repr

/-- Draw `n` values in sequence from a generator, also returning the
provenance tags of the consumed draws. -/
def drawMany : Nat → Rng → List Nat × Rng × List StreamTag
  | 0, r => ([], r, [])
  | n + 1, r =>
    let v := r.next
    let rest := drawMany n v.2
    (v.1 :: rest.1, rest.2.1, r.tag :: rest.2.2)

/-- Model of `ConnBuilder::single_connect_`: for every synapse type the
parameter pipeline (`update_param_dict_` plus the weight/delay fast paths)
draws the edge attributes from the generator handed to it; `nDraws` is the
total number of `value(rng, …)` calls the configured pipelines make per
edge.  Returns the emitted edge, the advanced generator, and the
provenance tags of the attribute draws. -/
def single_connect_ (nDraws snodeId tnodeId : Nat) (r : Rng) :
    Edge × Rng × List StreamTag :=
  let d := drawMany nDraws r
  (⟨snodeId, tnodeId, d.1⟩, d.2.1, d.2.2)

/-- `ConnBuilder::loop_over_targets_()`: use the target loop when the
target collection is smaller than the node graph, is not a contiguous
range, or some array parameter requires skipping; otherwise loop over the
thread's local nodes.  `nSkipParams` is
`parameters_requiring_skipping_.size()`. -/
def loop_over_targets_ (K : Kernel) (targets : NodeCollection) (nSkipParams : Nat) : Bool :=
  targets.size < K.numNodes || !targets.isRange || nSkipParams > 0

/-- The post-parallel-region loop of `ConnBuilder::connect` and
`ConnBuilder::disconnect`: walk the per-thread captured-exception slots in
thread order and throw a `WrappedThreadException` for the first non-empty
slot. -/
def checkExceptionsRaised : List (Option Nat) → Except ConnError Unit
  | [] => .ok ()
  | none :: rest => checkExceptionsRaised rest
  | some e :: _ => .error (.wrappedThread e)

/-- The state of the base `ConnBuilder`: source and target collections, the
common flags, the virtual capabilities of the concrete rule
(`is_symmetric()`, `supports_symmetric()`), per-synapse-type weight/delay
and attribute parameter objects, and for every selected synapse model
whether its connector requires symmetric connectivity. -/
structure ConnBuilderCore where
  sources : NodeCollection
  targets : NodeCollection
  allowAutapses : Bool
  allowMultapses : Bool
  makeSymmetric : Bool
  createsSymmetricConnections : Bool
  useStructuralPlasticity : Bool
  isSymmetric : Bool
  supportsSymmetric : Bool
  requiresSymmetricModels : List Bool
  weights : List (Option ConnParameter)
  delays : List (Option ConnParameter)
  synapseParams : List (List ConnParameter)

/-- `ConnBuilder::reset_weights_()`. -/
def reset_weights_ (st : ConnBuilderCore) : ConnBuilderCore :=
  { st with weights := st.weights.map (fun w => w.map ConnParameter.reset) }

/-- `ConnBuilder::reset_delays_()`. -/
def reset_delays_ (st : ConnBuilderCore) : ConnBuilderCore :=
  { st with delays := st.delays.map (fun d => d.map ConnParameter.reset) }

/-- The loop in `ConnBuilder::connect` that calls `reset()` on every
parameter in `synapse_params_`. -/
def resetSynapseParams (st : ConnBuilderCore) : ConnBuilderCore :=
  { st with synapseParams := st.synapseParams.map (fun ps => ps.map ConnParameter.reset) }

/-- `std::swap( sources_, targets_ )`. -/
def swapSourcesTargets (st : ConnBuilderCore) : ConnBuilderCore :=
  { st with sources := st.targets, targets := st.sources }

/-- The effect one invocation of a rule's virtual `connect_()` /
`disconnect_()` has on the builder: the rules advance the parameter
objects, emit edges, and fill the per-thread captured-exception slots;
they do not reassign the collections or the flags. -/
structure RuleEffect where
  weights : List (Option ConnParameter)
  delays : List (Option ConnParameter)
  synapseParams : List (List ConnParameter)
  edges : List Edge
  slots : List (Option Nat)

/-- A rule's virtual `connect_()` (or `disconnect_()`), abstracted as a
function of the builder state it runs against. -/
def ConnRule : Type :=
  ConnBuilderCore → RuleEffect

/-- Install the parameter state a rule invocation left behind. -/
def applyRuleEffect (st : ConnBuilderCore) (e : RuleEffect) : ConnBuilderCore :=
  { st with weights := e.weights, delays := e.delays, synapseParams := e.synapseParams }

/-- Merge the captured-exception slots of two consecutive parallel regions
writing into the same `exceptions_raised_` array: a slot filled by the
second region overwrites, an untouched slot keeps the first region's
content. -/
def mergeSlots (first second : List (Option Nat)) : List (Option Nat) :=
  List.zipWith (fun a b => b.orElse (fun _ => a)) first second

/-- Everything `ConnBuilder::connect` leaves behind: the final builder
state, the edges emitted into storage, the builder states each invocation
of the rule's `connect_()` ran against (in order), and the call's result
(normal return or thrown exception). -/
structure ConnectOutcome where
  finalState : ConnBuilderCore
  edges : List Edge
  ruleCalls : List ConnBuilderCore
  result : Except ConnError Unit

/-- `ConnBuilder::connect()` (conn_builder.cpp lines 188-251): validate the
symmetry requirements, dispatch to the structural-plasticity path or the
rule's `connect_()`, replay with swapped collections and reset parameters
when `make_symmetric_` is set and the rule does not create symmetric
connections itself, then re-raise the first captured worker exception.
`rule` is the concrete rule's `connect_`, `spRule` its `sp_connect_`. -/
def ConnBuilder.connect (rule spRule : ConnRule) (st : ConnBuilderCore) : ConnectOutcome :=
  if st.requiresSymmetricModels.any (fun rq => rq && !(st.isSymmetric || st.makeSymmetric)) then
    ⟨st, [], [], .error .badProperty⟩
  else if st.makeSymmetric && !st.supportsSymmetric then
    ⟨st, [], [], .error .notImplemented⟩
  else if st.useStructuralPlasticity then
    if st.makeSymmetric then
      ⟨st, [], [], .error .notImplemented⟩
    else
      let e := spRule st
      ⟨applyRuleEffect st e, e.edges, [], checkExceptionsRaised e.slots⟩
  else
    let e1 := rule st
    let st1 := applyRuleEffect st e1
    if st.makeSymmetric && !st.createsSymmetricConnections then
      let st2 := swapSourcesTargets (resetSynapseParams (reset_delays_ (reset_weights_ st1)))
      let e2 := rule st2
      let st3 := swapSourcesTargets (applyRuleEffect st2 e2)
      ⟨st3, e1.edges ++ e2.edges, [st, st2], checkExceptionsRaised (mergeSlots e1.slots e2.slots)⟩
    else
      ⟨st1, e1.edges, [st], checkExceptionsRaised e1.slots⟩

/-- `ConnBuilder::disconnect()` (conn_builder.cpp lines 253-273): dispatch
to `sp_disconnect_()` or `disconnect_()`, then re-raise the first captured
worker exception. -/
def ConnBuilder.disconnect (ruleDisc spRuleDisc : ConnRule) (st : ConnBuilderCore) : ConnectOutcome :=
  if st.useStructuralPlasticity then
    let e := spRuleDisc st
    ⟨applyRuleEffect st e, e.edges, [], checkExceptionsRaised e.slots⟩
  else
    let e := ruleDisc st
    ⟨applyRuleEffect st e, e.edges, [st], checkExceptionsRaised e.slots⟩

/-- Decidable test that every array-indexed parameter of the builder is at
its reset position. -/
def allParamsReset (st : ConnBuilderCore) : Bool :=
  st.weights.all (fun w => w.all (fun p => p.cursor == 0)) &&
  st.delays.all (fun d => d.all (fun p => p.cursor == 0)) &&
  st.synapseParams.all (fun ps => ps.all (fun p => p.cursor == 0))

/-- A `Parameter` object supplied for a rule parameter (the
`ParameterDatum` branch of the constructors).  The representative used
here always produces the same value, which is all the constructor-level
claims need; the constructors store the object without inspecting it. -/
structure ParameterObject where
  constVal : ℚ
deriving DecidableEq, Repr

/-- A rule parameter in the connection specification: either a
`Parameter` object or a numeric scalar. -/
inductive DegreeSpec where
  | param (p : ParameterObject)
  | scalar (v : Int)
deriving DecidableEq, Repr

/-- A probability entry in the connection specification: either a
`Parameter` object or a numeric scalar. -/
inductive ProbSpec where
  | param (p : ParameterObject)
  | scalar (v : ℚ)
deriving DecidableEq, Repr

/-- State a `FixedInDegreeBuilder` carries beyond the base builder. -/
structure FixedInDegreeBuilder where
  sources : NodeCollection
  targets : NodeCollection
  indegree : DegreeSpec
  allowAutapses : Bool
  allowMultapses : Bool
deriving DecidableEq, Repr

/-- Result of constructing a `FixedInDegreeBuilder`, recording which
`LOG( M_WARNING, … )` messages were emitted on the way. -/
structure FidCtorResult where
  builder : FixedInDegreeBuilder
  infiniteLoopWarning : Bool
  highConnectivityWarning : Bool
deriving DecidableEq, Repr

/-- `FixedInDegreeBuilder::FixedInDegreeBuilder` (conn_builder.cpp lines
1012-1065): reject an empty source collection; store a `Parameter`-valued
indegree without range checks; for a scalar indegree, with multapses
disallowed reject `indegree > |sources|`, warn and return early when
`indegree == |sources|` with autapses disallowed, warn above 90%
connectivity; finally reject a negative indegree. -/
def FixedInDegreeBuilder.construct (sources targets : NodeCollection)
    (indegree : DegreeSpec) (allowAutapses allowMultapses : Bool) :
    Except ConnError FidCtorResult :=
  if sources.size = 0 then
    .error .badProperty
  else
    match indegree with
    | .param p => .ok ⟨⟨sources, targets, .param p, allowAutapses, allowMultapses⟩, false, false⟩
    | .scalar v =>
      let b : FixedInDegreeBuilder := ⟨sources, targets, .scalar v, allowAutapses, allowMultapses⟩
      if !allowMultapses then
        if v > (sources.size : Int) then
          .error .badProperty
        else if v = (sources.size : Int) && !allowAutapses then
          .ok ⟨b, true, false⟩
        else
          let warn90 : Bool := (v : ℚ) > (9 / 10 : ℚ) * (sources.size : ℚ)
          if v < 0 then .error .badProperty else .ok ⟨b, false, warn90⟩
      else
        if v < 0 then .error .badProperty else .ok ⟨b, false, false⟩

/-- State a `FixedOutDegreeBuilder` carries beyond the base builder. -/
structure FixedOutDegreeBuilder where
  sources : NodeCollection
  targets : NodeCollection
  outdegree : DegreeSpec
  allowAutapses : Bool
  allowMultapses : Bool
deriving DecidableEq, Repr

/-- Result of constructing a `FixedOutDegreeBuilder`. -/
structure FodCtorResult where
  builder : FixedOutDegreeBuilder
  infiniteLoopWarning : Bool
  highConnectivityWarning : Bool
deriving DecidableEq, Repr

/-- `FixedOutDegreeBuilder::FixedOutDegreeBuilder` (conn_builder.cpp lines
1176-1231): the mirror image of the in-degree constructor, keyed on the
target collection. -/
def FixedOutDegreeBuilder.construct (sources targets : NodeCollection)
    (outdegree : DegreeSpec) (allowAutapses allowMultapses : Bool) :
    Except ConnError FodCtorResult :=
  if targets.size = 0 then
    .error .badProperty
  else
    match outdegree with
    | .param p => .ok ⟨⟨sources, targets, .param p, allowAutapses, allowMultapses⟩, false, false⟩
    | .scalar v =>
      let b : FixedOutDegreeBuilder := ⟨sources, targets, .scalar v, allowAutapses, allowMultapses⟩
      if !allowMultapses then
        if v > (targets.size : Int) then
          .error .badProperty
        else if v = (targets.size : Int) && !allowAutapses then
          .ok ⟨b, true, false⟩
        else
          let warn90 : Bool := (v : ℚ) > (9 / 10 : ℚ) * (targets.size : ℚ)
          if v < 0 then .error .badProperty else .ok ⟨b, false, warn90⟩
      else
        if v < 0 then .error .badProperty else .ok ⟨b, false, false⟩

/-- State a `FixedTotalNumberBuilder` carries beyond the base builder. -/
structure FixedTotalNumberBuilder where
  sources : NodeCollection
  targets : NodeCollection
  n : Int
  allowAutapses : Bool
  allowMultapses : Bool
deriving DecidableEq, Repr

/-- `FixedTotalNumberBuilder::FixedTotalNumberBuilder` (conn_builder.cpp
lines 1306-1339): with multapses disallowed reject
`N > |sources|·|targets|`; reject `N < 0`; finally, multapse suppression
itself is unimplemented for this rule. -/
def FixedTotalNumberBuilder.construct (sources targets : NodeCollection)
    (n : Int) (allowAutapses allowMultapses : Bool) :
    Except ConnError FixedTotalNumberBuilder :=
  if !allowMultapses && n > ((sources.size * targets.size : Nat) : Int) then
    .error .badProperty
  else if n < 0 then
    .error .badProperty
  else if !allowMultapses then
    .error .notImplemented
  else
    .ok ⟨sources, targets, n, allowAutapses, allowMultapses⟩

/-- State a `BernoulliBuilder` carries beyond the base builder. -/
structure BernoulliBuilder where
  sources : NodeCollection
  targets : NodeCollection
  p : ProbSpec
  allowAutapses : Bool
deriving DecidableEq, Repr

/-- `BernoulliBuilder::BernoulliBuilder` (conn_builder.cpp lines
1476-1498): store a `Parameter`-valued probability without range checks;
reject a scalar probability outside `[0, 1]`. -/
def BernoulliBuilder.construct (sources targets : NodeCollection)
    (p : ProbSpec) (allowAutapses : Bool) :
    Except ConnError BernoulliBuilder :=
  match p with
  | .param q => .ok ⟨sources, targets, .param q, allowAutapses⟩
  | .scalar v =>
    if v < 0 || 1 < v then .error .badProperty
    else .ok ⟨sources, targets, .scalar v, allowAutapses⟩

/-- `OneToOneBuilder::OneToOneBuilder` (conn_builder.cpp lines 560-571):
source and target collections must have the same size. -/
def OneToOneBuilder.construct (sources targets : NodeCollection) :
    Except ConnError Unit :=
  if sources.size != targets.size then .error .dimensionMismatch else .ok ()

/-- State a `SymmetricBernoulliBuilder` carries beyond the base builder. -/
structure SymmetricBernoulliBuilder where
  sources : NodeCollection
  targets : NodeCollection
  p : ℚ
  nParamDraws : Nat
deriving DecidableEq, Repr

/-- `SymmetricBernoulliBuilder::SymmetricBernoulliBuilder`
(conn_builder.cpp lines 1793-1822): sets
`creates_symmetric_connections_`; requires `0 ≤ p < 1`, multapses enabled,
autapses disabled and `make_symmetric` enabled.  `nParamDraws` is the
number of attribute draws the parameter pipelines make per emitted edge. -/
def SymmetricBernoulliBuilder.construct (sources targets : NodeCollection)
    (p : ℚ) (nParamDraws : Nat)
    (allowAutapses allowMultapses makeSymmetric : Bool) :
    Except ConnError SymmetricBernoulliBuilder :=
  if p < 0 || 1 ≤ p then .error .badProperty
  else if !allowMultapses then .error .badProperty
  else if allowAutapses then .error .badProperty
  else if !makeSymmetric then .error .badProperty
  else .ok ⟨sources, targets, p, nParamDraws⟩

/-- Connection-specification entries the tripartite builder reads
(`p_primary`, `p_third_if_primary`, `pool_size`, `pool_type`); `none`
means the entry is absent and the default applies. -/
structure TripartiteSpec where
  pPrimary : Option ℚ
  pThirdIfPrimary : Option ℚ
  poolSize : Option Int
  poolType : Option String
deriving DecidableEq, Repr

/-- State a `TripartiteBernoulliWithPoolBuilder` carries beyond the base
builder and its two auxiliary builders. -/
structure TripartiteBuilder where
  sources : NodeCollection
  targets : NodeCollection
  third : NodeCollection
  pPrimary : ℚ
  pThirdIfPrimary : ℚ
  randomPool : Bool
  poolSize : Int
  targetsPerThird : Nat
deriving DecidableEq, Repr

/-- `TripartiteBernoulliWithPoolBuilder::TripartiteBernoulliWithPoolBuilder`
(conn_builder.cpp lines 1606-1675): defaults are `p_primary = 1`,
`p_third_if_primary = 1`, a random pool of size `|third|`, and
`targets_per_third_ = |targets| / |third|` (integer division, computed
before any validation); then the probability range checks, the
`1 ≤ pool_size ≤ |third|` check, and the block-pool sizing check. -/
def TripartiteBuilder.construct (sources targets third : NodeCollection)
    (spec : TripartiteSpec) : Except ConnError TripartiteBuilder :=
  let pPrimary := spec.pPrimary.getD 1
  let pThird := spec.pThirdIfPrimary.getD 1
  let poolSize := spec.poolSize.getD (third.size : Int)
  let targetsPerThird := targets.size / third.size
  let randomPool : Except ConnError Bool :=
    match spec.poolType with
    | none => .ok true
    | some s =>
      if s = "random" then .ok true
      else if s = "block" then .ok false
      else .error .badProperty
  match randomPool with
  | .error e => .error e
  | .ok rp =>
    if pPrimary < 0 || 1 < pPrimary then .error .badProperty
    else if pThird < 0 || 1 < pThird then .error .badProperty
    else if poolSize < 1 || (third.size : Int) < poolSize then .error .badProperty
    else if !(rp || (targets.size : Int) * poolSize = (third.size : Int)
        || (poolSize = 1 && targets.size % third.size = 0)) then .error .badProperty
    else .ok ⟨sources, targets, third, pPrimary, pThird, rp, poolSize, targetsPerThird⟩

/-- Project an edge to its (source, target) pair. -/
def edgePair (e : Edge) : Nat × Nat :=
  (e.src, e.tgt)

/-- Per-rule state of a `OneToOneBuilder` as its `connect_` needs it:
the collections and flags of the base builder, the number of attribute
draws the parameter pipelines make per edge, and the number of registered
array parameters requiring skipping. -/
structure OneToOneState where
  sources : NodeCollection
  targets : NodeCollection
  allowAutapses : Bool
  nParamDraws : Nat
  nSkipParams : Nat

/-- The target-loop branch of `OneToOneBuilder::connect_` on one thread
(conn_builder.cpp lines 586-615): walk source and target collections in
lockstep, skip autapses when disallowed, skip (and advance array-parameter
cursors for) proxy targets, and connect the rest. -/
def oneToOneLoopTargets (K : Kernel) (b : OneToOneState) (tid : Nat) :
    List (Nat × Nat) → Rng → List Edge × Rng
  | [], r => ([], r)
  | (snodeId, tnodeId) :: rest, r =>
    if snodeId = tnodeId && !b.allowAutapses then
      oneToOneLoopTargets K b tid rest r
    else if K.isProxy tnodeId tid then
      oneToOneLoopTargets K b tid rest r
    else
      let e := single_connect_ b.nParamDraws snodeId tnodeId r
      let rest1 := oneToOneLoopTargets K b tid rest e.2.1
      (e.1 :: rest1.1, rest1.2)

/-- The local-nodes branch of `OneToOneBuilder::connect_` on one thread
(conn_builder.cpp lines 616-641): walk the thread's local nodes, keep
those appearing in the target collection, pair each with the source at the
same local index, and skip autapses when disallowed. -/
def oneToOneLoopLocal (K : Kernel) (b : OneToOneState) (tid : Nat) :
    List Nat → Rng → List Edge × Rng
  | [], r => ([], r)
  | tnodeId :: rest, r =>
    let lid := b.targets.getLid tnodeId
    if lid < 0 then
      oneToOneLoopLocal K b tid rest r
    else
      let snodeId := b.sources.get lid.toNat
      if !b.allowAutapses && snodeId = tnodeId then
        oneToOneLoopLocal K b tid rest r
      else
        let e := single_connect_ b.nParamDraws snodeId tnodeId r
        let rest1 := oneToOneLoopLocal K b tid rest e.2.1
        (e.1 :: rest1.1, rest1.2)

/-- What the local-nodes branch of `OneToOneBuilder::connect_`
contributes for one local node: nothing when the node is not in the
target collection or the pair is a forbidden autapse, otherwise the
(source, target) pair at the node's local index within the targets. -/
def oneToOneLocalStep (b : OneToOneState) (tn : Nat) : Option (Nat × Nat) :=
  match b.targets.elems.indexOf? tn with
  | none => none
  | some i => if b.sources.get i = tn then none else some (b.sources.get i, tn)

/-- `OneToOneBuilder::connect_` as executed by one worker thread: pick the
iteration regime with `loop_over_targets_` and emit this thread's edges,
drawing attributes from the thread's VP-specific generator. -/
def OneToOneBuilder.connectThread (K : Kernel) (b : OneToOneState) (f : RngFactory) (tid : Nat) :
    List Edge :=
  let rng := getVpSpecificRng f tid
  if loop_over_targets_ K b.targets b.nSkipParams then
    (oneToOneLoopTargets K b tid (b.sources.elems.zip b.targets.elems) rng).1
  else
    (oneToOneLoopLocal K b tid (K.localNodes tid) rng).1

/-- The edges `OneToOneBuilder::connect_` emits across the whole parallel
region: the union of the per-thread emissions. -/
def OneToOneBuilder.connectEdges (K : Kernel) (b : OneToOneState) (f : RngFactory) :
    List Edge :=
  (List.range K.numThreads).flatMap (fun tid => OneToOneBuilder.connectThread K b f tid)

/-- `std::round( indegree_->value( rng, target ) )` for the indegree
object stored by the fixed-in-degree constructor: a constant parameter
produces its value without consuming the generator. -/
def degreeValue : DegreeSpec → Int
  | .scalar v => v
  | .param p => round p.constVal

/-- The rejection loop of `FixedInDegreeBuilder::inner_connect_`
(conn_builder.cpp lines 1159-1165): redraw a source index until it is
neither a forbidden autapse nor a forbidden multapse.  Fuel bounds the
redraws; the source loops forever when no admissible index remains. -/
def fidDrawSource (b : FixedInDegreeBuilder) (tnodeId : Nat) (chIds : List Nat) :
    Nat → Rng → Option (Nat × Nat × Rng)
  | 0, _ => none
  | fuel + 1, r =>
    let d := r.ulrand b.sources.size
    let snodeId := b.sources.get d.1
    let skipAutapse := !b.allowAutapses && snodeId == tnodeId
    let skipMultapse := !b.allowMultapses && chIds.contains d.1
    if skipAutapse || skipMultapse then fidDrawSource b tnodeId chIds fuel d.2
    else some (d.1, snodeId, d.2)

/-- The emission loop of `FixedInDegreeBuilder::inner_connect_`
(conn_builder.cpp lines 1149-1173): draw `indegree` admissible source
indices, recording chosen indices when multapses are disallowed, and
connect each drawn source to the target. -/
def fidInnerLoop (b : FixedInDegreeBuilder) (nParamDraws tnodeId : Nat) :
    Nat → List Nat → Nat → Rng → Option (List Edge × Rng)
  | 0, _, _, r => some ([], r)
  | j + 1, chIds, fuel, r =>
    match fidDrawSource b tnodeId chIds fuel r with
    | none => none
    | some (sId, snodeId, r1) =>
      let chIds1 := if !b.allowMultapses then sId :: chIds else chIds
      let e := single_connect_ nParamDraws snodeId tnodeId r1
      match fidInnerLoop b nParamDraws tnodeId j chIds1 fuel e.2.1 with
      | none => none
      | some (es, r2) => some (e.1 :: es, r2)

/-- `FixedInDegreeBuilder::inner_connect_` (conn_builder.cpp lines
1128-1174): nothing to do when the target lives on another thread,
otherwise run the emission loop. -/
def fidInnerConnect (K : Kernel) (b : FixedInDegreeBuilder) (nParamDraws tid tnodeId : Nat)
    (indegVal : Int) (fuel : Nat) (r : Rng) : Option (List Edge × Rng) :=
  if K.nodeThread tnodeId ≠ tid then some ([], r)
  else fidInnerLoop b nParamDraws tnodeId indegVal.toNat [] fuel r

/-- The target-loop branch of `FixedInDegreeBuilder::connect_`
(conn_builder.cpp lines 1080-1098): per target, evaluate the indegree,
skip proxy targets (advancing array cursors by the indegree), otherwise
run `inner_connect_`. -/
def fidLoopTargets (K : Kernel) (b : FixedInDegreeBuilder) (nParamDraws tid : Nat) :
    List Nat → Nat → Rng → Option (List Edge × Rng)
  | [], _, r => some ([], r)
  | tnodeId :: rest, fuel, r =>
    let indegVal := degreeValue b.indegree
    if K.isProxy tnodeId tid then
      fidLoopTargets K b nParamDraws tid rest fuel r
    else
      match fidInnerConnect K b nParamDraws tid tnodeId indegVal fuel r with
      | none => none
      | some (es, r1) =>
        match fidLoopTargets K b nParamDraws tid rest fuel r1 with
        | none => none
        | some (es2, r2) => some (es ++ es2, r2)

/-- The local-nodes branch of `FixedInDegreeBuilder::connect_`
(conn_builder.cpp lines 1099-1117). -/
def fidLoopLocal (K : Kernel) (b : FixedInDegreeBuilder) (nParamDraws tid : Nat) :
    List Nat → Nat → Rng → Option (List Edge × Rng)
  | [], _, r => some ([], r)
  | tnodeId :: rest, fuel, r =>
    if b.targets.getLid tnodeId < 0 then
      fidLoopLocal K b nParamDraws tid rest fuel r
    else
      let indegVal := degreeValue b.indegree
      match fidInnerConnect K b nParamDraws tid tnodeId indegVal fuel r with
      | none => none
      | some (es, r1) =>
        match fidLoopLocal K b nParamDraws tid rest fuel r1 with
        | none => none
        | some (es2, r2) => some (es ++ es2, r2)

/-- `FixedInDegreeBuilder::connect_` as executed by one worker thread;
`none` models the non-terminating rejection loop (fuel exhausted). -/
def FixedInDegreeBuilder.connectThread (K : Kernel) (b : FixedInDegreeBuilder)
    (nParamDraws nSkipParams : Nat) (f : RngFactory) (fuel tid : Nat) :
    Option (List Edge) :=
  let rng := getVpSpecificRng f tid
  if loop_over_targets_ K b.targets nSkipParams then
    (fidLoopTargets K b nParamDraws tid b.targets.elems fuel rng).map (fun x => x.1)
  else
    (fidLoopLocal K b nParamDraws tid (K.localNodes tid) fuel rng).map (fun x => x.1)

/-- The edges `FixedInDegreeBuilder::connect_` emits across the whole
parallel region; `none` if any thread's rejection loop fails to
terminate. -/
def FixedInDegreeBuilder.connectEdges (K : Kernel) (b : FixedInDegreeBuilder)
    (nParamDraws nSkipParams : Nat) (f : RngFactory) (fuel : Nat) :
    Option (List Edge) :=
  (List.range K.numThreads).foldr
    (fun tid acc =>
      match FixedInDegreeBuilder.connectThread K b nParamDraws nSkipParams f fuel tid, acc with
      | some es, some rest => some (es ++ rest)
      | _, _ => none)
    (some [])

/-- The truncated-binomial indegree draw of
`SymmetricBernoulliBuilder::connect_` (conn_builder.cpp lines 1850-1856):
redraw from `Binomial(|sources|, p)` while the sample is `≥ |sources|`.
Returns the accepted sample together with the provenance tags of all
consumed draws; `none` when the fuel bounding the redraws runs out. -/
def truncatedBinomial (n : Nat) : Nat → Rng → Option (Nat × Rng) × List StreamTag
  | 0, _ => (none, [])
  | fuel + 1, r =>
    let d := r.binomial n
    if n ≤ d.1 then
      let rest := truncatedBinomial n fuel d.2
      (rest.1, r.tag :: rest.2)
    else
      (some (d.1, d.2), [r.tag])

/-- An `if local then single_connect_` step of
`SymmetricBernoulliBuilder::connect_`: emit an edge with its attribute
draws taken from `r` when the endpoint is on this thread, otherwise leave
the generator untouched. -/
def emitIfLocal (cond : Bool) (nDraws snodeId tnodeId : Nat) (r : Rng) :
    List Edge × Rng × List StreamTag :=
  if cond then
    let e := single_connect_ nDraws snodeId tnodeId r
    ([e.1], e.2.1, e.2.2)
  else ([], r, [])

/-- The source-selection loop of `SymmetricBernoulliBuilder::connect_`
(conn_builder.cpp lines 1869-1907): while fewer than `indegree` sources
are chosen, draw a source index from the synchronized generator; skip
autapses and already-chosen sources; for an accepted source emit
`source → target` when the target is on this thread and
`target → source` when the source is on this thread, with the attribute
draws of both emissions taken from the same generator that made the
structure draws.  `rem` is the number of sources still to accept, `fuel`
bounds the loop iterations, `prev` is `previous_snode_ids`. -/
def symChoose (K : Kernel) (b : SymmetricBernoulliBuilder) (tid tnodeId : Nat) :
    Nat → Nat → List Nat → Rng → Option (List Edge × Rng) × List StreamTag
  | 0, _, _, r => (some ([], r), [])
  | _ + 1, 0, _, _ => (none, [])
  | rem + 1, fuel + 1, prev, r =>
    let d := r.ulrand b.sources.size
    let snodeId := b.sources.get d.1
    if snodeId = tnodeId || prev.contains snodeId then
      let rest := symChoose K b tid tnodeId (rem + 1) fuel prev d.2
      (rest.1, r.tag :: rest.2)
    else
      let prev1 := snodeId :: prev
      let step1 := emitIfLocal (K.nodeThread tnodeId == tid) b.nParamDraws snodeId tnodeId d.2
      let step2 := emitIfLocal (K.nodeThread snodeId == tid) b.nParamDraws tnodeId snodeId step1.2.1
      let rest := symChoose K b tid tnodeId rem fuel prev1 step2.2.1
      match rest.1 with
      | none => (none, r.tag :: (step1.2.2 ++ step2.2.2 ++ rest.2))
      | some (es, r2) =>
        (some (step1.1 ++ step2.1 ++ es, r2), r.tag :: (step1.2.2 ++ step2.2.2 ++ rest.2))

/-- One target's work in `SymmetricBernoulliBuilder::connect_`: truncated
binomial indegree, then the source-selection loop. -/
def symBernoulliTarget (K : Kernel) (b : SymmetricBernoulliBuilder) (tid tnodeId fuel : Nat)
    (r : Rng) : Option (List Edge × Rng) × List StreamTag :=
  match truncatedBinomial b.sources.size fuel r with
  | (none, tr) => (none, tr)
  | (some (indeg, r1), tr) =>
    let rest := symChoose K b tid tnodeId indeg fuel [] r1
    (rest.1, tr ++ rest.2)

/-- The target loop of `SymmetricBernoulliBuilder::connect_`
(conn_builder.cpp lines 1848-1908). -/
def symBernoulliTargetsLoop (K : Kernel) (b : SymmetricBernoulliBuilder) (tid : Nat) :
    List Nat → Nat → Rng → Option (List Edge × Rng) × List StreamTag
  | [], _, r => (some ([], r), [])
  | tnodeId :: rest, fuel, r =>
    match symBernoulliTarget K b tid tnodeId fuel r with
    | (none, tr) => (none, tr)
    | (some (es, r1), tr) =>
      let rest1 := symBernoulliTargetsLoop K b tid rest fuel r1
      match rest1.1 with
      | none => (none, tr ++ rest1.2)
      | some (es2, r2) => (some (es ++ es2, r2), tr ++ rest1.2)

/-- `SymmetricBernoulliBuilder::connect_` as executed by one worker
thread (conn_builder.cpp lines 1825-1917): the thread obtains the
synchronized generator (`get_vp_synced_rng`) — and no other generator —
and runs the target loop with it.  Returns the thread's emitted edges
(`none` when a rejection loop exhausts its fuel) and the provenance tags
of every random draw the thread made. -/
def SymmetricBernoulliBuilder.connectThread (K : Kernel) (b : SymmetricBernoulliBuilder)
    (f : RngFactory) (fuel tid : Nat) : Option (List Edge) × List StreamTag :=
  let syncedRng := getVpSyncedRng f
  let out := symBernoulliTargetsLoop K b tid b.targets.elems fuel syncedRng
  (out.1.map (fun x => x.1), out.2)

/-- The connection specification `⟨pool_size := ps, pool_type := "block"⟩`
with all other entries at their defaults. -/
def blockSpec (ps : Int) : TripartiteSpec :=
  ⟨none, none, some ps, some "block"⟩

/-- The connection specification `⟨pool_size := ps, pool_type := "random"⟩`
with all other entries at their defaults. -/
def randomSpec (ps : Int) : TripartiteSpec :=
  ⟨none, none, some ps, some "random"⟩

/-- A builder state used to witness the exception-aggregation and
symmetrization-replay behaviour of the base builder at concrete inputs. -/
def witnessCore : ConnBuilderCore :=
  { sources := ⟨[1, 2], false⟩
    targets := ⟨[3, 4], false⟩
    allowAutapses := true
    allowMultapses := true
    makeSymmetric := false
    createsSymmetricConnections := false
    useStructuralPlasticity := false
    isSymmetric := false
    supportsSymmetric := true
    requiresSymmetricModels := [false]
    weights := [some ⟨5, true⟩]
    delays := [none]
    synapseParams := [[⟨2, true⟩]] }

/-- A rule whose parallel region leaves thread 0's slot empty and fills
the slots of threads 1 and 2. -/
def witnessRule : ConnRule :=
  fun _ => ⟨[some ⟨5, true⟩], [none], [[⟨2, true⟩]], [], [none, some 7, some 9]⟩

/-- A one-thread kernel on a four-node graph: every node is owned by
thread 0, so node 3 is local wherever the builders look it up. -/
def smallKernel : Kernel :=
  ⟨1, 4, fun _ => 0⟩

/-- An RNG factory whose streams enumerate the naturals. -/
def countingFactory : RngFactory :=
  ⟨fun i => i, fun _ i => i⟩

/-- The fixed-in-degree builder produced by constructing with sources
`{1, 2}`, targets `{3}`, scalar indegree `2`, autapses and multapses
disallowed — the configuration whose construction only warns. -/
def fullIndegreeBuilder : FixedInDegreeBuilder :=
  ⟨⟨[1, 2], false⟩, ⟨[3], false⟩, .scalar 2, false, false⟩

/-- A one-thread kernel on a three-node graph. -/
def threeNodeKernel : Kernel :=
  ⟨1, 3, fun _ => 0⟩

/-- A one-to-one builder with sources = targets = `{1, 2, 3}` (the whole
node graph, as a contiguous range) and autapses disallowed. -/
def diagonalOneToOne : OneToOneState :=
  ⟨⟨[1, 2, 3], true⟩, ⟨[1, 2, 3], true⟩, false, 0, 0⟩

/-! ## Theorems -/

/-- Claim C8: `ConnBuilder::loop_over_targets_` selects the local-node
loop (returns `false`) exactly when the target collection's size equals
the size of the whole node graph, the collection is a contiguous range,
and no array-indexed parameters requiring skipping are registered; in
every other case it returns `true`.  The hypothesis records the
NodeCollection invariant that a collection never holds more nodes than
the node graph. -/
theorem loop_over_targets_false_iff (K : Kernel) (targets : NodeCollection) (nSkipParams : Nat)
    (h : targets.size ≤ K.numNodes) :
    loop_over_targets_ K targets nSkipParams = false ↔
      (targets.size = K.numNodes ∧ targets.isRange = true ∧ nSkipParams = 0) := by
  unfold loop_over_targets_
  cases hr : targets.isRange with
  | false => simp
  | true =>
    simp only [hr, Bool.not_true, Bool.or_false, Bool.or_eq_false_iff,
      decide_eq_false_iff_not, Nat.not_lt, gt_iff_lt, Nat.pos_iff_ne_zero, ne_eq,
      Decidable.not_not]
    constructor
    · rintro ⟨h1, h2⟩
      exact ⟨by omega, trivial, h2⟩
    · rintro ⟨h1, _, h3⟩
      exact ⟨by omega, h3⟩

/-- Witness for `loop_over_targets_false_iff`: on a three-node graph, a
contiguous three-node target collection with no skip-requiring parameters
selects the local-node loop. -/
theorem loop_over_targets_false_iff_witness :
    NodeCollection.size ⟨[1, 2, 3], true⟩ ≤ (Kernel.mk 1 3 (fun _ => 0)).numNodes ∧
      (loop_over_targets_ (Kernel.mk 1 3 (fun _ => 0)) ⟨[1, 2, 3], true⟩ 0 = false ↔
        (NodeCollection.size ⟨[1, 2, 3], true⟩ = (Kernel.mk 1 3 (fun _ => 0)).numNodes ∧
          NodeCollection.isRange ⟨[1, 2, 3], true⟩ = true ∧ (0 : Nat) = 0)) :=
  ⟨by decide, loop_over_targets_false_iff (Kernel.mk 1 3 (fun _ => 0)) ⟨[1, 2, 3], true⟩ 0 (by decide)⟩

/-- Claim C5: the fixed-total-number constructor rejects `N < 0` with
`BadProperty`; with multapses disallowed it rejects
`N > |sources|·|targets|` with `BadProperty` and every remaining case
with `NotImplemented`, so no build with multapse suppression succeeds;
with multapses allowed only `N < 0` is rejected. -/
theorem fixedTotalNumber_checks (sources targets : NodeCollection) (n : Int) (aa : Bool) :
    (FixedTotalNumberBuilder.construct sources targets n aa false =
      (if n < 0 then .error .badProperty
       else if ((sources.size * targets.size : Nat) : Int) < n then .error .badProperty
       else .error .notImplemented)) ∧
    (FixedTotalNumberBuilder.construct sources targets n aa true =
      if n < 0 then .error .badProperty
      else .ok ⟨sources, targets, n, aa, true⟩) := by
  unfold FixedTotalNumberBuilder.construct
  constructor
  · simp only [Bool.not_false, Bool.true_and, decide_eq_true_eq]
    split_ifs <;> rfl
  · simp

/-- Claim C9: tripartite construction with `pool_type = "block"` throws
`BadProperty` unless `|targets|·pool_size = |third|` or `pool_size = 1`
with `|targets| mod |third| = 0`; and for either pool type, a `pool_size`
outside `[1, |third|]` throws `BadProperty` (with `pool_type = "random"`
that is the only rejection). -/
theorem tripartite_pool_checks (sources targets third : NodeCollection) (ps : Int) :
    (TripartiteBuilder.construct sources targets third (blockSpec ps) = .error .badProperty ↔
      (ps < 1 ∨ (third.size : Int) < ps ∨
        ¬((targets.size : Int) * ps = (third.size : Int) ∨
          (ps = 1 ∧ targets.size % third.size = 0)))) ∧
    (TripartiteBuilder.construct sources targets third (randomSpec ps) = .error .badProperty ↔
      (ps < 1 ∨ (third.size : Int) < ps)) := by
  unfold TripartiteBuilder.construct blockSpec randomSpec
  norm_num
  constructor
  · split_ifs with h1 h2 <;> simp_all <;> omega
  · constructor
    · intro himp
      by_contra hc
      push_neg at hc
      exact absurd (himp (by omega) (by omega)) (by simp)
    · intro hor h1 h2
      exact absurd hor (by omega)

/-- Claim C10: an `indegree` or `p` supplied as a `Parameter` object is
stored without any range validation — construction succeeds for every
parameter object, including ones producing out-of-range values — while
the same out-of-range values given as scalars are rejected with
`BadProperty`. -/
theorem parameter_objects_skip_range_checks (sources targets : NodeCollection)
    (q : ParameterObject) (aa am : Bool) (h : 0 < sources.size) :
    exceptOk (FixedInDegreeBuilder.construct sources targets (.param q) aa am) = true ∧
    exceptOk (BernoulliBuilder.construct sources targets (.param q) aa) = true ∧
    FixedInDegreeBuilder.construct sources targets (.scalar (-1)) aa am = .error .badProperty ∧
    BernoulliBuilder.construct sources targets (.scalar 2) aa = .error .badProperty := by
  refine ⟨?_, ?_, ?_, ?_⟩
  · unfold FixedInDegreeBuilder.construct
    simp [Nat.pos_iff_ne_zero.mp h, exceptOk]
  · rfl
  · unfold FixedInDegreeBuilder.construct
    have hs : sources.size ≠ 0 := Nat.pos_iff_ne_zero.mp h
    have h1 : ¬((-1 : Int) > (sources.size : Int)) := by
      have := Int.natCast_nonneg sources.size
      omega
    have h2 : ¬((-1 : Int) = (sources.size : Int)) := by
      have := Int.natCast_nonneg sources.size
      omega
    have h3 : ¬((-1 : ℚ) > (9 / 10 : ℚ) * (sources.size : ℚ)) := by
      have : (0 : ℚ) ≤ (9 / 10 : ℚ) * (sources.size : ℚ) := by positivity
      linarith
    rcases am <;> simp [hs, h1, h2, h3]
  · unfold BernoulliBuilder.construct
    norm_num

/-- Witness for `parameter_objects_skip_range_checks`: with a one-node
source collection, a parameter object fixed at the out-of-range value `2`
is accepted for both `indegree` and `p`, while the scalars `-1` and `2`
are rejected. -/
theorem parameter_objects_skip_range_checks_witness :
    0 < NodeCollection.size ⟨[1], false⟩ ∧
      (exceptOk (FixedInDegreeBuilder.construct ⟨[1], false⟩ ⟨[2], false⟩
          (.param ⟨2⟩) true true) = true ∧
        exceptOk (BernoulliBuilder.construct ⟨[1], false⟩ ⟨[2], false⟩
          (.param ⟨2⟩) true) = true ∧
        FixedInDegreeBuilder.construct ⟨[1], false⟩ ⟨[2], false⟩
          (.scalar (-1)) true true = .error .badProperty ∧
        BernoulliBuilder.construct ⟨[1], false⟩ ⟨[2], false⟩
          (.scalar 2) true = .error .badProperty) :=
  ⟨by decide,
    parameter_objects_skip_range_checks ⟨[1], false⟩ ⟨[2], false⟩ ⟨2⟩ true true (by decide)⟩

/-- Counterexample to claim C4: the fixed-in-degree constructor accepts an
empty target collection (only the source collection is checked), so it is
not the case that every rule rejects an empty source or target collection
with `BadProperty`. -/
theorem empty_targets_accepted_by_fixedInDegree :
    FixedInDegreeBuilder.construct ⟨[1], false⟩ ⟨[], false⟩ (.scalar 0) true true =
      .ok ⟨⟨⟨[1], false⟩, ⟨[], false⟩, .scalar 0, true, true⟩, false, false⟩ := by
  rfl

/-- Walking the captured-exception slots in thread order and throwing on
the first filled slot is the same as wrapping the first `some` entry. -/
theorem checkExceptionsRaised_eq_firstSome (slots : List (Option Nat)) :
    checkExceptionsRaised slots =
      (match slots.findSome? id with
       | some e => .error (.wrappedThread e)
       | none => .ok ()) := by
  induction slots with
  | nil => rfl
  | cons s rest ih =>
    cases s with
    | none => simpa [checkExceptionsRaised, List.findSome?] using ih
    | some e => simp [checkExceptionsRaised, List.findSome?]

/-- Claim C2: when `connect()` (on the plain path) or `disconnect()`
finishes its parallel region, a `WrappedThreadException` carrying the
exception of the lowest-indexed thread with a filled captured-failure
slot is thrown, later threads' exceptions are suppressed, and the call
returns normally when no slot is filled. -/
theorem connect_rethrows_first_thread_exception (st : ConnBuilderCore)
    (rule spRule dRule spdRule : ConnRule)
    (hreq : st.requiresSymmetricModels.any
      (fun rq => rq && !(st.isSymmetric || st.makeSymmetric)) = false)
    (hms : st.makeSymmetric = false)
    (hsp : st.useStructuralPlasticity = false) :
    (ConnBuilder.connect rule spRule st).result =
      (match (rule st).slots.findSome? id with
       | some e => .error (.wrappedThread e)
       | none => .ok ()) ∧
    (ConnBuilder.disconnect dRule spdRule st).result =
      (match (dRule st).slots.findSome? id with
       | some e => .error (.wrappedThread e)
       | none => .ok ()) := by
  constructor
  · rw [← checkExceptionsRaised_eq_firstSome]
    unfold ConnBuilder.connect
    rw [hreq, hms, hsp]
    simp
  · rw [← checkExceptionsRaised_eq_firstSome]
    unfold ConnBuilder.disconnect
    rw [hsp]
    simp

/-- Witness for `connect_rethrows_first_thread_exception`: with slots
`[none, some 7, some 9]` both `connect` and `disconnect` throw the
wrapped exception of thread 1 and suppress thread 2's. -/
theorem connect_rethrows_first_thread_exception_witness :
    (ConnBuilder.connect witnessRule witnessRule witnessCore).result =
      .error (.wrappedThread 7) ∧
    (ConnBuilder.disconnect witnessRule witnessRule witnessCore).result =
      .error (.wrappedThread 7) := by
  have h := connect_rethrows_first_thread_exception witnessCore
    witnessRule witnessRule witnessRule witnessRule rfl rfl rfl
  exact ⟨by rw [h.1]; rfl, by rw [h.2]; rfl⟩

/-- After the reset sequence of the symmetrization replay, every
parameter cursor is back at its initial position. -/
theorem allParamsReset_after_reset (st : ConnBuilderCore) :
    allParamsReset (resetSynapseParams (reset_delays_ (reset_weights_ st))) = true := by
  unfold allParamsReset resetSynapseParams reset_delays_ reset_weights_
  simp only [List.all_eq_true, List.mem_map, Bool.and_eq_true]
  refine ⟨⟨fun w hw => ?_, fun d hd => ?_⟩, fun ps hps => ?_⟩
  · rcases hw with ⟨w0, _, rfl⟩
    cases w0 <;> simp [Option.all, ConnParameter.reset]
  · rcases hd with ⟨d0, _, rfl⟩
    cases d0 <;> simp [Option.all, ConnParameter.reset]
  · rcases hps with ⟨ps0, _, rfl⟩
    simp only [List.all_eq_true, List.mem_map]
    rintro p ⟨p0, _, rfl⟩
    simp [ConnParameter.reset]

theorem allParamsReset_swap (st : ConnBuilderCore) :
    allParamsReset (swapSourcesTargets st) = allParamsReset st :=
  rfl

/-- Claim C3: with `make_symmetric` on a rule that supports but does not
intrinsically create symmetric connections, `connect()` runs the rule's
`connect_` on the original state, then on a state whose weight, delay and
synapse parameters are all reset and whose source and target collections
are swapped, and on return the builder's collections hold their original
values. -/
theorem connect_make_symmetric_replay (st : ConnBuilderCore) (rule spRule : ConnRule)
    (hreq : st.requiresSymmetricModels.any
      (fun rq => rq && !(st.isSymmetric || st.makeSymmetric)) = false)
    (hms : st.makeSymmetric = true)
    (hsup : st.supportsSymmetric = true)
    (hcs : st.createsSymmetricConnections = false)
    (hsp : st.useStructuralPlasticity = false) :
    (ConnBuilder.connect rule spRule st).ruleCalls =
      [st, swapSourcesTargets (resetSynapseParams (reset_delays_ (reset_weights_
        (applyRuleEffect st (rule st)))))] ∧
    (∀ st2 ∈ (ConnBuilder.connect rule spRule st).ruleCalls.drop 1,
      allParamsReset st2 = true ∧ st2.sources = st.targets ∧ st2.targets = st.sources) ∧
    (ConnBuilder.connect rule spRule st).finalState.sources = st.sources ∧
    (ConnBuilder.connect rule spRule st).finalState.targets = st.targets := by
  have hcalls : (ConnBuilder.connect rule spRule st).ruleCalls =
      [st, swapSourcesTargets (resetSynapseParams (reset_delays_ (reset_weights_
        (applyRuleEffect st (rule st)))))] := by
    unfold ConnBuilder.connect
    rw [hreq, hms, hsup, hcs, hsp]
    simp
  refine ⟨hcalls, ?_, ?_, ?_⟩
  · intro st2 hst2
    rw [hcalls] at hst2
    simp at hst2
    subst hst2
    refine ⟨?_, rfl, rfl⟩
    rw [allParamsReset_swap]
    exact allParamsReset_after_reset _
  · unfold ConnBuilder.connect
    rw [hreq, hms, hsup, hcs, hsp]
    simp [swapSourcesTargets, applyRuleEffect, resetSynapseParams, reset_delays_,
      reset_weights_]
  · unfold ConnBuilder.connect
    rw [hreq, hms, hsup, hcs, hsp]
    simp [swapSourcesTargets, applyRuleEffect, resetSynapseParams, reset_delays_,
      reset_weights_]

/-- Witness for `connect_make_symmetric_replay` at a concrete builder
state and rule. -/
theorem connect_make_symmetric_replay_witness :
    (ConnBuilder.connect witnessRule witnessRule
        { witnessCore with makeSymmetric := true }).ruleCalls =
      [{ witnessCore with makeSymmetric := true },
        swapSourcesTargets (resetSynapseParams (reset_delays_ (reset_weights_
          (applyRuleEffect { witnessCore with makeSymmetric := true }
            (witnessRule { witnessCore with makeSymmetric := true })))))] ∧
    (∀ st2 ∈ (ConnBuilder.connect witnessRule witnessRule
        { witnessCore with makeSymmetric := true }).ruleCalls.drop 1,
      allParamsReset st2 = true ∧
        st2.sources = ({ witnessCore with makeSymmetric := true } : ConnBuilderCore).targets ∧
        st2.targets = ({ witnessCore with makeSymmetric := true } : ConnBuilderCore).sources) ∧
    (ConnBuilder.connect witnessRule witnessRule
        { witnessCore with makeSymmetric := true }).finalState.sources =
      ({ witnessCore with makeSymmetric := true } : ConnBuilderCore).sources ∧
    (ConnBuilder.connect witnessRule witnessRule
        { witnessCore with makeSymmetric := true }).finalState.targets =
      ({ witnessCore with makeSymmetric := true } : ConnBuilderCore).targets :=
  connect_make_symmetric_replay { witnessCore with makeSymmetric := true }
    witnessRule witnessRule rfl rfl rfl rfl rfl

/-- Claim C4 as amended: only the fixed-in-degree constructor rejects an
empty source collection and only the fixed-out-degree constructor rejects
an empty target collection (both with `BadProperty`); the remaining rule
constructors perform no emptiness check — fixed-total-number, Bernoulli,
one-to-one and symmetric-Bernoulli construction succeed on empty
collections when their other checks pass. -/
theorem empty_collection_checks (sources targets : NodeCollection) (rb : Bool)
    (d : DegreeSpec) (aa am : Bool) :
    FixedInDegreeBuilder.construct ⟨[], rb⟩ targets d aa am = .error .badProperty ∧
    FixedOutDegreeBuilder.construct sources ⟨[], rb⟩ d aa am = .error .badProperty ∧
    exceptOk (FixedTotalNumberBuilder.construct ⟨[], rb⟩ ⟨[], rb⟩ 0 true true) = true ∧
    exceptOk (BernoulliBuilder.construct ⟨[], rb⟩ ⟨[], rb⟩ (.scalar 0) true) = true ∧
    OneToOneBuilder.construct ⟨[], rb⟩ ⟨[], rb⟩ = .ok () ∧
    exceptOk (SymmetricBernoulliBuilder.construct ⟨[], rb⟩ ⟨[], rb⟩ (1 / 2) 0
      false true true) = true := by
  refine ⟨rfl, rfl, rfl, ?_, rfl, ?_⟩
  · unfold BernoulliBuilder.construct
    norm_num [exceptOk]
  · unfold SymmetricBernoulliBuilder.construct
    norm_num [exceptOk]

theorem indexOf?_some_spec {l : List Nat} {c i : Nat} (h : l.indexOf? c = some i) :
    i < l.length ∧ l.getD i 0 = c := by
  have hmem : c ∈ l := by
    by_contra hc
    rw [List.indexOf?_eq_none_iff.mpr (fun x hx => by
      simp only [beq_iff_eq]
      intro he
      exact hc (he ▸ hx))] at h
    exact Option.noConfusion h
  have hidx : l.indexOf c = i := by
    have h2 := List.indexOf_eq_indexOf? c l
    rw [h] at h2
    simpa using h2
  have hlt : i < l.length := hidx ▸ List.indexOf_lt_length.mpr hmem
  refine ⟨hlt, ?_⟩
  rw [List.getD_eq_getElem l 0 hlt]
  have := List.indexOf_get (a := c) (l := l) (hidx ▸ hlt)
  simpa [hidx, List.get_eq_getElem] using this

theorem indexOf?_getElem_of_nodup {l : List Nat} (hnd : l.Nodup) {i : Nat}
    (hi : i < l.length) : l.indexOf? l[i] = some i := by
  have hmem : l[i] ∈ l := List.getElem_mem hi
  rcases hm : l.indexOf? l[i] with _ | j
  · rw [List.indexOf?_eq_none_iff] at hm
    exact absurd (by simp : (l[i] == l[i]) = true) (by simpa using hm l[i] hmem)
  · have hspec := indexOf?_some_spec hm
    have hj : l[j] = l[i] := by
      rw [← List.getD_eq_getElem l 0 hspec.1, hspec.2]
    have hji : j = i := (List.Nodup.getElem_inj_iff hnd).mp hj
    exact congrArg some hji

theorem mem_localNodes (K : Kernel) (tid n : Nat) :
    n ∈ K.localNodes tid ↔ (1 ≤ n ∧ n ≤ K.numNodes ∧ K.nodeThread n = tid) := by
  unfold Kernel.localNodes
  simp only [List.mem_filter, List.mem_map, List.mem_range, decide_eq_true_eq]
  constructor
  · rintro ⟨⟨a, ha, rfl⟩, hth⟩
    exact ⟨by omega, by omega, hth⟩
  · rintro ⟨h1, h2, hth⟩
    exact ⟨⟨n - 1, by omega, by omega⟩, hth⟩

theorem oneToOneLoopTargets_map (K : Kernel) (b : OneToOneState) (tid : Nat)
    (haa : b.allowAutapses = false) :
    ∀ (pairs : List (Nat × Nat)) (r : Rng),
    ((oneToOneLoopTargets K b tid pairs r).1).map edgePair =
      pairs.filter (fun p => !(p.1 == p.2) && (K.nodeThread p.2 == tid)) := by
  intro pairs
  induction pairs with
  | nil => intro r; rfl
  | cons p rest ih =>
    intro r
    rcases p with ⟨s, t⟩
    unfold oneToOneLoopTargets
    rw [haa, List.filter_cons]
    by_cases hst : s = t
    · subst hst
      rw [if_pos (by simp), if_neg (by simp)]
      exact ih r
    · rw [if_neg (by simp [hst])]
      by_cases hpx : K.isProxy t tid = true
      · have hnt : (K.nodeThread t == tid) = false := by
          unfold Kernel.isProxy at hpx
          simpa using hpx
        rw [if_pos hpx, if_neg (by simp [hnt])]
        exact ih r
      · have hnt : (K.nodeThread t == tid) = true := by
          unfold Kernel.isProxy at hpx
          simpa using hpx
        rw [if_neg hpx, if_pos (by simp [beq_iff_eq, hst, hnt])]
        show (s, t) :: (oneToOneLoopTargets K b tid rest
            (single_connect_ b.nParamDraws s t r).2.1).1.map edgePair =
          (s, t) :: rest.filter (fun p => !(p.1 == p.2) && (K.nodeThread p.2 == tid))
        exact congrArg _ (ih _)

theorem oneToOneLoopLocal_map (K : Kernel) (b : OneToOneState) (tid : Nat)
    (haa : b.allowAutapses = false) :
    ∀ (ns : List Nat) (r : Rng),
    ((oneToOneLoopLocal K b tid ns r).1).map edgePair =
      ns.filterMap (oneToOneLocalStep b) := by
  intro ns
  induction ns with
  | nil => intro r; rfl
  | cons tn rest ih =>
    intro r
    unfold oneToOneLoopLocal
    rw [List.filterMap_cons]
    rcases hidx : b.targets.elems.indexOf? tn with _ | i
    · have hlid : b.targets.getLid tn = -1 := by
        unfold NodeCollection.getLid
        rw [hidx]
      have hstep : oneToOneLocalStep b tn = none := by
        unfold oneToOneLocalStep
        rw [hidx]
      rw [hlid, if_pos (show (-1 : Int) < 0 by norm_num), hstep]
      exact ih r
    · have hlid : b.targets.getLid tn = (i : Int) := by
        unfold NodeCollection.getLid
        rw [hidx]
      have hstep : oneToOneLocalStep b tn =
          (if b.sources.get i = tn then none else some (b.sources.get i, tn)) := by
        unfold oneToOneLocalStep
        rw [hidx]
      rw [hlid, haa, if_neg (Int.not_lt.mpr (Int.natCast_nonneg i)), hstep]
      by_cases hat : b.sources.get i = tn
      · rw [if_pos (by simpa using hat), if_pos hat]
        exact ih r
      · rw [if_neg (by simpa using hat), if_neg hat]
        show (b.sources.get ((i : Int)).toNat, tn) :: (oneToOneLoopLocal K b tid rest
            (single_connect_ b.nParamDraws (b.sources.get ((i : Int)).toNat) tn r).2.1).1.map
              edgePair =
          (b.sources.get i, tn) :: rest.filterMap (oneToOneLocalStep b)
        rw [Int.toNat_natCast]
        exact congrArg _ (ih _)

theorem connectThread_map_targets (K : Kernel) (b : OneToOneState) (f : RngFactory)
    (haa : b.allowAutapses = false)
    (hb : loop_over_targets_ K b.targets b.nSkipParams = true) (tid : Nat) :
    (OneToOneBuilder.connectThread K b f tid).map edgePair =
      (b.sources.elems.zip b.targets.elems).filter
        (fun p => !(p.1 == p.2) && (K.nodeThread p.2 == tid)) := by
  unfold OneToOneBuilder.connectThread
  rw [hb]
  simp only [if_pos rfl]
  exact oneToOneLoopTargets_map K b tid haa _ _

theorem connectThread_map_local (K : Kernel) (b : OneToOneState) (f : RngFactory)
    (haa : b.allowAutapses = false)
    (hb : loop_over_targets_ K b.targets b.nSkipParams = false) (tid : Nat) :
    (OneToOneBuilder.connectThread K b f tid).map edgePair =
      (K.localNodes tid).filterMap (oneToOneLocalStep b) := by
  unfold OneToOneBuilder.connectThread
  rw [hb]
  simp only [Bool.false_eq_true, if_neg (by simp : ¬False)]
  exact oneToOneLoopLocal_map K b tid haa _ _

/-- Claim C7: for the one-to-one rule on equal-size collections with
autapses disallowed, the emitted edge set is exactly
`{(s_i, t_i) : s_i ≠ t_i}` over the index pairing.  The hypotheses record
the kernel/collection invariants: the collections have equal size (the
constructor enforces this), the target collection has no duplicates, its
nodes lie in the node graph, and each is owned by one of the worker
threads. -/
theorem oneToOne_connect_edge_set (K : Kernel) (b : OneToOneState) (f : RngFactory)
    (haa : b.allowAutapses = false)
    (hsize : b.sources.elems.length = b.targets.elems.length)
    (hnodup : b.targets.elems.Nodup)
    (hgraph : ∀ t ∈ b.targets.elems, 1 ≤ t ∧ t ≤ K.numNodes)
    (hown : ∀ t ∈ b.targets.elems, K.nodeThread t < K.numThreads)
    (a c : Nat) :
    (a, c) ∈ (OneToOneBuilder.connectEdges K b f).map edgePair ↔
      ((a, c) ∈ b.sources.elems.zip b.targets.elems ∧ a ≠ c) := by
  unfold OneToOneBuilder.connectEdges
  rw [List.map_flatMap]
  rw [List.mem_flatMap]
  by_cases hb : loop_over_targets_ K b.targets b.nSkipParams = true
  · simp only [connectThread_map_targets K b f haa hb]
    constructor
    · rintro ⟨tid, _, hmem⟩
      rw [List.mem_filter] at hmem
      refine ⟨hmem.1, ?_⟩
      have h2 := hmem.2
      simp only [Bool.and_eq_true, Bool.not_eq_true', beq_eq_false_iff_ne] at h2
      exact h2.1
    · rintro ⟨hzip, hne⟩
      have hct : c ∈ b.targets.elems := (List.of_mem_zip hzip).2
      refine ⟨K.nodeThread c, List.mem_range.mpr (hown c hct), ?_⟩
      rw [List.mem_filter]
      exact ⟨hzip, by simp [hne]⟩
  · rw [Bool.not_eq_true] at hb
    simp only [connectThread_map_local K b f haa hb]
    constructor
    · rintro ⟨tid, _, hmem⟩
      rw [List.mem_filterMap] at hmem
      rcases hmem with ⟨tn, _, hstep⟩
      unfold oneToOneLocalStep at hstep
      rcases hidx : b.targets.elems.indexOf? tn with _ | i
      · rw [hidx] at hstep
        exact absurd hstep (by simp)
      · rw [hidx] at hstep
        have hstep2 : (if b.sources.get i = tn then none
            else some (b.sources.get i, tn)) = some (a, c) := hstep
        by_cases hat : b.sources.get i = tn
        · rw [if_pos hat] at hstep2
          exact absurd hstep2 (by simp)
        · rw [if_neg hat] at hstep2
          simp only [Option.some.injEq, Prod.mk.injEq] at hstep2
          have hspec := indexOf?_some_spec hidx
          have hit : i < b.targets.elems.length := hspec.1
          have his : i < b.sources.elems.length := by omega
          have htc : b.targets.elems[i] = c := by
            rw [← List.getD_eq_getElem _ 0 hit, hspec.2, hstep2.2]
          have hsa : b.sources.elems[i] = a := by
            rw [← List.getD_eq_getElem _ 0 his]
            exact hstep2.1
          constructor
          · rw [List.mem_iff_getElem]
            refine ⟨i, ?_, ?_⟩
            · rw [List.length_zip]
              omega
            · rw [List.getElem_zip, htc, hsa]
          · rw [← hsa, ← htc]
            intro hac
            apply hat
            unfold NodeCollection.get
            rw [List.getD_eq_getElem _ 0 his, hac, ← List.getD_eq_getElem _ 0 hit]
            exact hspec.2
    · rintro ⟨hzip, hne⟩
      rw [List.mem_iff_getElem] at hzip
      obtain ⟨i, hilen, hzi⟩ := hzip
      have hit : i < b.targets.elems.length := by
        rw [List.length_zip] at hilen
        omega
      have his : i < b.sources.elems.length := by omega
      rw [List.getElem_zip, Prod.mk.injEq] at hzi
      have hct : c ∈ b.targets.elems := hzi.2 ▸ List.getElem_mem hit
      refine ⟨K.nodeThread c, List.mem_range.mpr (hown c hct), ?_⟩
      rw [List.mem_filterMap]
      refine ⟨c, ?_, ?_⟩
      · rw [mem_localNodes]
        exact ⟨(hgraph c hct).1, (hgraph c hct).2, rfl⟩
      · unfold oneToOneLocalStep
        have hidx : b.targets.elems.indexOf? c = some i := by
          rw [← hzi.2]
          exact indexOf?_getElem_of_nodup hnodup hit
        rw [hidx]
        have hget : b.sources.get i = a := by
          unfold NodeCollection.get
          rw [List.getD_eq_getElem _ 0 his]
          exact hzi.1
        show (if b.sources.get i = c then none else some (b.sources.get i, c)) = some (a, c)
        rw [hget, if_neg hne]

/-- Witness for `oneToOne_connect_edge_set`: with sources = targets =
`{1, 2, 3}` and autapses disallowed, every pair is an autapse and no edge
is emitted. -/
theorem oneToOne_connect_edge_set_witness :
    OneToOneBuilder.connectEdges threeNodeKernel diagonalOneToOne countingFactory = [] ∧
    ((1, 1) ∈ (OneToOneBuilder.connectEdges threeNodeKernel diagonalOneToOne
        countingFactory).map edgePair ↔
      ((1, 1) ∈ diagonalOneToOne.sources.elems.zip diagonalOneToOne.targets.elems ∧
        (1 : Nat) ≠ 1)) :=
  ⟨rfl, oneToOne_connect_edge_set threeNodeKernel diagonalOneToOne countingFactory rfl rfl
    (by decide) (by decide) (by decide) 1 1⟩

theorem drawMany_tags (n : Nat) (r : Rng) :
    (drawMany n r).2.1.tag = r.tag ∧ (drawMany n r).2.2 = List.replicate n r.tag := by
  induction n generalizing r with
  | zero => exact ⟨rfl, rfl⟩
  | succ n ih =>
    have h := ih (r.next).2
    have htag : (r.next).2.tag = r.tag := rfl
    constructor
    · show (drawMany n (r.next).2).2.1.tag = r.tag
      rw [h.1, htag]
    · show r.tag :: (drawMany n (r.next).2).2.2 = List.replicate (n + 1) r.tag
      rw [h.2, htag, List.replicate_succ]

theorem single_connect_tags (nDraws snodeId tnodeId : Nat) (r : Rng) :
    (single_connect_ nDraws snodeId tnodeId r).2.1.tag = r.tag ∧
    (single_connect_ nDraws snodeId tnodeId r).2.2 = List.replicate nDraws r.tag := by
  unfold single_connect_
  exact drawMany_tags nDraws r

theorem emitIfLocal_tags (cond : Bool) (nDraws snodeId tnodeId : Nat) (r : Rng) :
    (emitIfLocal cond nDraws snodeId tnodeId r).2.1.tag = r.tag ∧
    (∀ t ∈ (emitIfLocal cond nDraws snodeId tnodeId r).2.2, t = r.tag) := by
  unfold emitIfLocal
  cases cond with
  | false => simp
  | true =>
    have h := single_connect_tags nDraws snodeId tnodeId r
    refine ⟨h.1, ?_⟩
    intro t ht
    simp only [if_pos] at ht
    rw [h.2] at ht
    exact List.eq_of_mem_replicate ht

theorem truncatedBinomial_tags (n fuel : Nat) (r : Rng) :
    (∀ t ∈ (truncatedBinomial n fuel r).2, t = r.tag) ∧
    (∀ v r2, (truncatedBinomial n fuel r).1 = some (v, r2) → r2.tag = r.tag) := by
  induction fuel generalizing r with
  | zero => simp [truncatedBinomial]
  | succ fuel ih =>
    unfold truncatedBinomial
    have hdtag : (r.binomial n).2.tag = r.tag := rfl
    by_cases hc : n ≤ (r.binomial n).1
    · rw [if_pos hc]
      have h := ih (r.binomial n).2
      constructor
      · intro t ht
        rcases List.mem_cons.mp ht with rfl | ht2
        · rfl
        · rw [← hdtag]
          exact h.1 t ht2
      · intro v r2 hvr
        rw [← hdtag]
        exact h.2 v r2 hvr
    · rw [if_neg hc]
      constructor
      · intro t ht
        rcases List.mem_singleton.mp ht with rfl
        rfl
      · intro v r2 hvr
        simp only [Option.some.injEq, Prod.mk.injEq] at hvr
        rw [← hvr.2]
        exact hdtag

theorem symChoose_tags (K : Kernel) (b : SymmetricBernoulliBuilder) (tid tnodeId : Nat)
    (fuel : Nat) : ∀ (rem : Nat) (prev : List Nat) (r : Rng),
    (∀ t ∈ (symChoose K b tid tnodeId rem fuel prev r).2, t = r.tag) ∧
    (∀ es r2, (symChoose K b tid tnodeId rem fuel prev r).1 = some (es, r2) → r2.tag = r.tag) := by
  induction fuel with
  | zero =>
    intro rem prev r
    cases rem with
    | zero => simp [symChoose]
    | succ rem => simp [symChoose]
  | succ fuel ih =>
    intro rem prev r
    cases rem with
    | zero => simp [symChoose]
    | succ rem =>
      have hdtag : (r.ulrand b.sources.size).2.tag = r.tag := rfl
      unfold symChoose
      by_cases hskip :
          b.sources.get (r.ulrand b.sources.size).1 = tnodeId ||
            prev.contains (b.sources.get (r.ulrand b.sources.size).1)
      · rw [if_pos hskip]
        have h := ih (rem + 1) prev (r.ulrand b.sources.size).2
        constructor
        · intro t ht
          rcases List.mem_cons.mp ht with rfl | ht2
          · rfl
          · rw [← hdtag]
            exact h.1 t ht2
        · intro es r2 hes
          rw [← hdtag]
          exact h.2 es r2 hes
      · rw [if_neg hskip]
        have h1 := emitIfLocal_tags (K.nodeThread tnodeId == tid) b.nParamDraws
          (b.sources.get (r.ulrand b.sources.size).1) tnodeId (r.ulrand b.sources.size).2
        have h2 := emitIfLocal_tags
          (K.nodeThread (b.sources.get (r.ulrand b.sources.size).1) == tid) b.nParamDraws
          tnodeId (b.sources.get (r.ulrand b.sources.size).1)
          (emitIfLocal (K.nodeThread tnodeId == tid) b.nParamDraws
            (b.sources.get (r.ulrand b.sources.size).1) tnodeId
            (r.ulrand b.sources.size).2).2.1
        have hrest := ih rem
          (b.sources.get (r.ulrand b.sources.size).1 :: prev)
          (emitIfLocal (K.nodeThread (b.sources.get (r.ulrand b.sources.size).1) == tid)
            b.nParamDraws tnodeId (b.sources.get (r.ulrand b.sources.size).1)
            (emitIfLocal (K.nodeThread tnodeId == tid) b.nParamDraws
              (b.sources.get (r.ulrand b.sources.size).1) tnodeId
              (r.ulrand b.sources.size).2).2.1).2.1
        have htag1 := h1.1
        have htag2 := h2.1
        have htagchain : (emitIfLocal
            (K.nodeThread (b.sources.get (r.ulrand b.sources.size).1) == tid)
            b.nParamDraws tnodeId (b.sources.get (r.ulrand b.sources.size).1)
            (emitIfLocal (K.nodeThread tnodeId == tid) b.nParamDraws
              (b.sources.get (r.ulrand b.sources.size).1) tnodeId
              (r.ulrand b.sources.size).2).2.1).2.1.tag = r.tag := by
          rw [htag2, htag1, hdtag]
        have hmemtr : ∀ t ∈
            ((emitIfLocal (K.nodeThread tnodeId == tid) b.nParamDraws
              (b.sources.get (r.ulrand b.sources.size).1) tnodeId
              (r.ulrand b.sources.size).2).2.2 ++
            (emitIfLocal (K.nodeThread (b.sources.get (r.ulrand b.sources.size).1) == tid)
              b.nParamDraws tnodeId (b.sources.get (r.ulrand b.sources.size).1)
              (emitIfLocal (K.nodeThread tnodeId == tid) b.nParamDraws
                (b.sources.get (r.ulrand b.sources.size).1) tnodeId
                (r.ulrand b.sources.size).2).2.1).2.2 ++
            (symChoose K b tid tnodeId rem fuel
              (b.sources.get (r.ulrand b.sources.size).1 :: prev)
              (emitIfLocal (K.nodeThread (b.sources.get (r.ulrand b.sources.size).1) == tid)
                b.nParamDraws tnodeId (b.sources.get (r.ulrand b.sources.size).1)
                (emitIfLocal (K.nodeThread tnodeId == tid) b.nParamDraws
                  (b.sources.get (r.ulrand b.sources.size).1) tnodeId
                  (r.ulrand b.sources.size).2).2.1).2.1).2), t = r.tag := by
          intro t ht
          rcases List.mem_append.mp ht with ht1 | htr
          · rcases List.mem_append.mp ht1 with hta | htb
            · rw [← hdtag]
              exact h1.2 t hta
            · have := h2.2 t htb
              rw [this, htag1, hdtag]
          · have := hrest.1 t htr
            rw [this, htagchain]
        constructor
        · intro t ht
          rcases hm : (symChoose K b tid tnodeId rem fuel
              (b.sources.get (r.ulrand b.sources.size).1 :: prev)
              (emitIfLocal (K.nodeThread (b.sources.get (r.ulrand b.sources.size).1) == tid)
                b.nParamDraws tnodeId (b.sources.get (r.ulrand b.sources.size).1)
                (emitIfLocal (K.nodeThread tnodeId == tid) b.nParamDraws
                  (b.sources.get (r.ulrand b.sources.size).1) tnodeId
                  (r.ulrand b.sources.size).2).2.1).2.1).1 with _ | p
          all_goals
            simp only [hm] at ht
          · rcases List.mem_cons.mp ht with rfl | ht2
            · rfl
            · exact hmemtr t ht2
          · rcases p with ⟨es, r2⟩
            rcases List.mem_cons.mp ht with rfl | ht2
            · rfl
            · exact hmemtr t ht2
        · intro es r2 hes
          rcases hm : (symChoose K b tid tnodeId rem fuel
              (b.sources.get (r.ulrand b.sources.size).1 :: prev)
              (emitIfLocal (K.nodeThread (b.sources.get (r.ulrand b.sources.size).1) == tid)
                b.nParamDraws tnodeId (b.sources.get (r.ulrand b.sources.size).1)
                (emitIfLocal (K.nodeThread tnodeId == tid) b.nParamDraws
                  (b.sources.get (r.ulrand b.sources.size).1) tnodeId
                  (r.ulrand b.sources.size).2).2.1).2.1).1 with _ | p
          all_goals
            simp only [hm] at hes
          · exact absurd hes (by simp)
          · rcases p with ⟨es0, r0⟩
            simp only [Option.some.injEq, Prod.mk.injEq] at hes
            rw [← hes.2, ← htagchain]
            exact hrest.2 es0 r0 hm

theorem symBernoulliTarget_tags (K : Kernel) (b : SymmetricBernoulliBuilder)
    (tid tnodeId fuel : Nat) (r : Rng) :
    (∀ t ∈ (symBernoulliTarget K b tid tnodeId fuel r).2, t = r.tag) ∧
    (∀ es r2, (symBernoulliTarget K b tid tnodeId fuel r).1 = some (es, r2) → r2.tag = r.tag) := by
  unfold symBernoulliTarget
  have ht := truncatedBinomial_tags b.sources.size fuel r
  rcases hm : truncatedBinomial b.sources.size fuel r with ⟨res, tr⟩
  rw [hm] at ht
  rcases res with _ | ⟨indeg, r1⟩
  · exact ⟨ht.1, by simp⟩
  · have hr1 : r1.tag = r.tag := ht.2 indeg r1 rfl
    have hch := symChoose_tags K b tid tnodeId fuel indeg [] r1
    constructor
    · intro t htm
      rcases List.mem_append.mp htm with h1 | h2
      · exact ht.1 t h1
      · rw [hch.1 t h2]
        exact hr1
    · intro es r2 hes
      rw [hch.2 es r2 hes]
      exact hr1

theorem symBernoulliTargetsLoop_tags (K : Kernel) (b : SymmetricBernoulliBuilder) (tid : Nat)
    (ts : List Nat) (fuel : Nat) (r : Rng) :
    (∀ t ∈ (symBernoulliTargetsLoop K b tid ts fuel r).2, t = r.tag) ∧
    (∀ es r2, (symBernoulliTargetsLoop K b tid ts fuel r).1 = some (es, r2) → r2.tag = r.tag) := by
  induction ts generalizing r with
  | nil => simp [symBernoulliTargetsLoop]
  | cons tn rest ih =>
    unfold symBernoulliTargetsLoop
    have htar := symBernoulliTarget_tags K b tid tn fuel r
    rcases hm : symBernoulliTarget K b tid tn fuel r with ⟨res, tr⟩
    rw [hm] at htar
    rcases res with _ | ⟨es1, r1⟩
    · exact ⟨htar.1, by simp⟩
    · have hr1 : r1.tag = r.tag := htar.2 es1 r1 rfl
      have hrest := ih r1
      rcases hm2 : (symBernoulliTargetsLoop K b tid rest fuel r1).1 with _ | ⟨es2, r2⟩
      · simp only [hm2]
        constructor
        · intro t htm
          rcases List.mem_append.mp htm with h1 | h2
          · exact htar.1 t h1
          · rw [hrest.1 t h2]
            exact hr1
        · intro es r0 hes
          exact absurd hes (by simp)
      · simp only [hm2]
        constructor
        · intro t htm
          rcases List.mem_append.mp htm with h1 | h2
          · exact htar.1 t h1
          · rw [hrest.1 t h2]
            exact hr1
        · intro es r0 hes
          simp only [Option.some.injEq, Prod.mk.injEq] at hes
          rw [← hes.2, hrest.2 es2 r2 hm2]
          exact hr1

/-- Counterexample to claim C6: with sources `{1, 2}`, targets `{3}`,
scalar `indegree = 2 = |sources|`, multapses and autapses disallowed,
construction only warns (it raises nothing), but the subsequent
`connect_` does not produce an empty graph — it emits the edges `(1,3)`
and `(2,3)`, because the early `return` only leaves the constructor and
the stored indegree is still used by the connection loop. -/
theorem fid_full_indegree_emits_edges :
    FixedInDegreeBuilder.construct ⟨[1, 2], false⟩ ⟨[3], false⟩ (.scalar 2) false false =
      .ok ⟨fullIndegreeBuilder, true, false⟩ ∧
    FixedInDegreeBuilder.connectEdges smallKernel fullIndegreeBuilder 0 0 countingFactory 8 =
      some [⟨1, 3, []⟩, ⟨2, 3, []⟩] :=
  ⟨rfl, rfl⟩

/-- Claim C6 as amended: with multapses and autapses disallowed and a
scalar indegree equal to the source population size, the constructor
emits the infinite-loop warning and returns early without raising, but
this aborts only the remaining constructor checks, not the rule: the
indegree stays stored and `connect_` proceeds normally — on the disjoint
two-source / one-target example it emits one edge per source rather than
an empty graph. -/
theorem fid_full_indegree_warns_and_proceeds (sources targets : NodeCollection)
    (h : 0 < sources.size) :
    FixedInDegreeBuilder.construct sources targets (.scalar (sources.size : Int)) false false =
      .ok ⟨⟨sources, targets, .scalar (sources.size : Int), false, false⟩, true, false⟩ ∧
    FixedInDegreeBuilder.connectEdges smallKernel fullIndegreeBuilder 0 0 countingFactory 8 =
      some [⟨1, 3, []⟩, ⟨2, 3, []⟩] := by
  constructor
  · have hs : sources.size ≠ 0 := Nat.pos_iff_ne_zero.mp h
    unfold FixedInDegreeBuilder.construct
    simp [hs]
  · rfl

/-- Witness for `fid_full_indegree_warns_and_proceeds` at sources
`{1, 2}`, targets `{3}`. -/
theorem fid_full_indegree_warns_and_proceeds_witness :
    0 < NodeCollection.size ⟨[1, 2], false⟩ ∧
      (FixedInDegreeBuilder.construct ⟨[1, 2], false⟩ ⟨[3], false⟩
          (.scalar (NodeCollection.size ⟨[1, 2], false⟩ : Int)) false false =
        .ok ⟨⟨⟨[1, 2], false⟩, ⟨[3], false⟩,
          .scalar (NodeCollection.size ⟨[1, 2], false⟩ : Int), false, false⟩, true, false⟩ ∧
      FixedInDegreeBuilder.connectEdges smallKernel fullIndegreeBuilder 0 0 countingFactory 8 =
        some [⟨1, 3, []⟩, ⟨2, 3, []⟩]) :=
  ⟨by decide, fid_full_indegree_warns_and_proceeds ⟨[1, 2], false⟩ ⟨[3], false⟩ (by decide)⟩

/-- Claim C1: in `SymmetricBernoulliBuilder::connect_`, every random draw
— the truncated-binomial indegree draws, the source-index draws, and the
edge-attribute draws made inside `single_connect_` — comes from the
rank-synchronized generator; no draw is taken from the per-VP-specific
stream. -/
theorem symmetricBernoulli_all_draws_synced (K : Kernel) (b : SymmetricBernoulliBuilder)
    (f : RngFactory) (fuel tid : Nat) :
    (SymmetricBernoulliBuilder.connectThread K b f fuel tid).2.all
      (fun t => t == StreamTag.synced) = true := by
  rw [List.all_eq_true]
  intro t ht
  have htag := (symBernoulliTargetsLoop_tags K b tid b.targets.elems fuel
    (getVpSyncedRng f)).1 t ht
  rw [htag]
  rfl

end NestConn
